import Mathlib

/-!
# Verification of the H3X adaptive dimensional switching core

Shallow embedding of `src/proof/adaptive_dimensional_switching.py`: the
per-node hysteresis state machine (`DimensionalNode.evaluate_workload`)
and the multi-node simulation driver (`simulate_nodes`).

Modelling conventions:
* Python floats (workload, threshold) are embedded as rationals `ℚ`.
* Python ints (dimension, transition_buffer, buffer_limit) are embedded
  as `ℤ`; node ids, produced by `range`, as `ℕ`.
* The process-global numpy RNG (`np.random.uniform(0, 1)`) is embedded
  as an explicit stream `src : ℕ → ℚ` of its successive return values,
  consumed left to right: draw `k` is `src k`.
* A Python method that mutates `self` becomes a function from the node
  to the updated node; a function that can raise becomes `Except`.
-/

namespace H3X

/-- The spec's LOW state; the source uses the integer dimension 2 for it. -/
def LOW : ℤ := 2

/-- The spec's HIGH state; the source uses the integer dimension 4 for it. -/
def HIGH : ℤ := 4

/-- State of a `DimensionalNode`, mirroring the fields assigned in
`DimensionalNode.__init__`. -/
@[ext]
structure DimensionalNode where
  id : ℕ
  workload : ℚ
  dimension : ℤ
  transition_buffer : ℤ
  threshold : ℚ
  buffer_limit : ℤ
  deriving Repr, DecidableEq

namespace DimensionalNode

/-- `DimensionalNode.__init__`: assigns the given parameters and starts
`transition_buffer` at 0. The Python defaults are `dimension=2`,
`threshold=0.7`, `buffer_limit=3`; callers here pass them explicitly. -/
def init (id : ℕ) (workload : ℚ) (dimension : ℤ) (threshold : ℚ)
    (buffer_limit : ℤ) : DimensionalNode :=
  { id := id
    workload := workload
    dimension := dimension
    transition_buffer := 0
    threshold := threshold
    buffer_limit := buffer_limit }

/-- Construction wrapped in `Except` to model Python exception behaviour:
the body of `__init__` is only field assignments, so it always succeeds. -/
def construct (id : ℕ) (workload : ℚ) (dimension : ℤ) (threshold : ℚ)
    (buffer_limit : ℤ) : Except String DimensionalNode :=
  Except.ok (init id workload dimension threshold buffer_limit)

end DimensionalNode

/-- `DimensionalNode.evaluate_workload`: if `workload > threshold`,
increment the buffer and switch `dimension` to 4 once the buffer exceeds
`buffer_limit`; otherwise decrement the buffer (floored at 0 via
`max(0, ...)`) and reset `dimension` to 2 when the buffer is 0. -/
def evaluate_workload (n : DimensionalNode) : DimensionalNode :=
  if n.threshold < n.workload then
    let buf := n.transition_buffer + 1
    if n.buffer_limit < buf then
      { n with transition_buffer := buf, dimension := 4 }
    else
      { n with transition_buffer := buf }
  else
    let buf := max 0 (n.transition_buffer - 1)
    if buf = 0 then
      { n with transition_buffer := buf, dimension := 2 }
    else
      { n with transition_buffer := buf }

/-- The full Python call `node.evaluate_workload()`: the method body ends
without a `return` statement, so the call evaluates to `None` (embedded
as `Option.none`) alongside the mutation of the node. -/
def evaluate_workload_call (n : DimensionalNode) :
    DimensionalNode × Option ℤ :=
  (evaluate_workload n, none)

/-- `DimensionalNode.update`: overwrite `workload` with the next draw of
the global RNG (passed here as the drawn value) and re-evaluate. -/
def DimensionalNode.update (n : DimensionalNode) (draw : ℚ) :
    DimensionalNode :=
  evaluate_workload { n with workload := draw }

/-- Per-node view of a run: feed the node one signal after another (each
via `update`) and record the dimension after every call, as the driver's
inner loop records `node.dimension` right after `node.update()`. -/
def nodeHistory (n : DimensionalNode) : List ℚ → List ℤ
  | [] => []
  | q :: qs =>
      (DimensionalNode.update n q).dimension ::
        nodeHistory (DimensionalNode.update n q) qs

/-- `dimension_history[i].append(d)`: append `d` to the entry of the
history mapping whose key is `i` (keys are the distinct node ids). -/
def appendAt (hist : List (ℕ × List ℤ)) (i : ℕ) (d : ℤ) :
    List (ℕ × List ℤ) :=
  hist.map (fun p => if p.1 = i then (p.1, p.2 ++ [d]) else p)

/-- The inner loop of `simulate_nodes` for one step: for each node in
order, update it with the next RNG draw (`src k`, `k` the running draw
index) and append its new dimension to its history entry. Returns the
updated nodes, the next draw index, and the updated history. -/
def stepNodes (src : ℕ → ℚ) :
    List DimensionalNode → ℕ → List (ℕ × List ℤ) →
      List DimensionalNode × ℕ × List (ℕ × List ℤ)
  | [], k, hist => ([], k, hist)
  | n :: rest, k, hist =>
      let n' := DimensionalNode.update n (src k)
      let (rest', k', hist') :=
        stepNodes src rest (k + 1) (appendAt hist n'.id n'.dimension)
      (n' :: rest', k', hist')

/-- The outer loop of `simulate_nodes`: run `steps` passes of the inner
loop, threading the node states, the RNG draw index and the history. -/
def runSteps (src : ℕ → ℚ) :
    ℕ → List DimensionalNode → ℕ → List (ℕ × List ℤ) →
      List (ℕ × List ℤ)
  | 0, _, _, hist => hist
  | s + 1, nodes, k, hist =>
      let (nodes', k', hist') := stepNodes src nodes k hist
      runSteps src s nodes' k' hist'

/-- `simulate_nodes(num_nodes, steps)`: create `num_nodes` nodes with ids
`0, ..., num_nodes - 1`, each with an initial workload drawn from the
RNG (draws `0, ..., num_nodes - 1`, in id order) and the Python defaults
`dimension=2`, `threshold=0.7`, `buffer_limit=3`; start every history
empty; then run `steps` steps. The dict is embedded as an association
list in key order `0, ..., num_nodes - 1`. -/
def simulate_nodes (num_nodes steps : ℕ) (src : ℕ → ℚ) :
    List (ℕ × List ℤ) :=
  let nodes := (List.range num_nodes).map
    (fun i => DimensionalNode.init i (src i) 2 (7/10) 3)
  let hist := (List.range num_nodes).map (fun i => (i, ([] : List ℤ)))
  runSteps src steps nodes num_nodes hist

/-- The full call to `simulate_nodes`, wrapped in `Except` to model
Python exception behaviour: the function body performs no validation and
contains nothing that raises, so it always returns its history dict. -/
def simulate_nodes_run (num_nodes steps : ℕ) (src : ℕ → ℚ) :
    Except String (List (ℕ × List ℤ)) :=
  Except.ok (simulate_nodes num_nodes steps src)

/-- One inner-loop pass of the driver, described functionally: a pass over nodes with ids `l` (in order), starting at draw
index `k`, updates the nodes (`passNodes`) and the per-id history
function (`passHist`); used to characterise `stepNodes`. -/

def passNodes (src : ℕ → ℚ) (N : ℕ → DimensionalNode) :
    List ℕ → ℕ → List DimensionalNode
  | [], _ => []
  | a :: l, k =>
      DimensionalNode.update (N a) (src k) :: passNodes src N l (k + 1)

def passHist (src : ℕ → ℚ) (N : ℕ → DimensionalNode) :
    List ℕ → ℕ → (ℕ → List ℤ) → ℕ → List ℤ
  | [], _, h => h
  | a :: l, k, h =>
      passHist src N l (k + 1)
        (fun i =>
          if i = a then
            h i ++ [(DimensionalNode.update (N a) (src k)).dimension]
          else h i)

/-! ## Basic lemmas about a single evaluation -/

theorem evaluate_workload_above (n : DimensionalNode)
    (h : n.threshold < n.workload) :
    evaluate_workload n =
      { n with
        transition_buffer := n.transition_buffer + 1
        dimension :=
          if n.buffer_limit < n.transition_buffer + 1 then 4
          else n.dimension } := by
  unfold evaluate_workload
  rw [if_pos h]
  split <;> simp_all

theorem evaluate_workload_below (n : DimensionalNode)
    (h : n.workload ≤ n.threshold) :
    evaluate_workload n =
      { n with
        transition_buffer := max 0 (n.transition_buffer - 1)
        dimension :=
          if max 0 (n.transition_buffer - 1) = 0 then 2
          else n.dimension } := by
  unfold evaluate_workload
  rw [if_neg (not_lt.mpr h)]
  split <;> simp_all

theorem evaluate_workload_id (n : DimensionalNode) :
    (evaluate_workload n).id = n.id := by
  dsimp only [evaluate_workload]; split <;> split <;> rfl

theorem evaluate_workload_threshold (n : DimensionalNode) :
    (evaluate_workload n).threshold = n.threshold := by
  dsimp only [evaluate_workload]; split <;> split <;> rfl

theorem evaluate_workload_limit (n : DimensionalNode) :
    (evaluate_workload n).buffer_limit = n.buffer_limit := by
  dsimp only [evaluate_workload]; split <;> split <;> rfl

theorem update_id (n : DimensionalNode) (w : ℚ) :
    (n.update w).id = n.id :=
  evaluate_workload_id _

theorem update_threshold (n : DimensionalNode) (w : ℚ) :
    (n.update w).threshold = n.threshold :=
  evaluate_workload_threshold _

theorem update_limit (n : DimensionalNode) (w : ℚ) :
    (n.update w).buffer_limit = n.buffer_limit :=
  evaluate_workload_limit _

theorem update_above (n : DimensionalNode) (w : ℚ)
    (h : n.threshold < w) :
    (n.update w).transition_buffer = n.transition_buffer + 1 ∧
    (n.update w).dimension =
      (if n.buffer_limit < n.transition_buffer + 1 then 4
       else n.dimension) := by
  unfold DimensionalNode.update
  rw [evaluate_workload_above _ (by simpa using h)]
  exact ⟨rfl, rfl⟩

theorem update_below (n : DimensionalNode) (w : ℚ)
    (h : w ≤ n.threshold) :
    (n.update w).transition_buffer = max 0 (n.transition_buffer - 1) ∧
    (n.update w).dimension =
      (if max 0 (n.transition_buffer - 1) = 0 then 2
       else n.dimension) := by
  unfold DimensionalNode.update
  rw [evaluate_workload_below _ (by simpa using h)]
  exact ⟨rfl, rfl⟩

/-! ## Claim C1 -/

/-- Claim C1: a single `evaluate` call implements exactly the debounce
update rule. If the signal is strictly above the threshold, the counter
is incremented by 1 and the state is HIGH exactly when the new counter
strictly exceeds `debounce_limit`, otherwise unchanged; if the signal is
at or below the threshold (equality in this branch), the counter is
decremented by 1 floored at 0 and the state is LOW exactly when the
resulting counter is 0, otherwise unchanged. -/
theorem evaluate_workload_update_rule (n : DimensionalNode) :
    (n.threshold < n.workload →
      (evaluate_workload n).transition_buffer =
          n.transition_buffer + 1 ∧
      (evaluate_workload n).dimension =
        (if n.buffer_limit < n.transition_buffer + 1 then HIGH
         else n.dimension)) ∧
    (n.workload ≤ n.threshold →
      (evaluate_workload n).transition_buffer =
          max 0 (n.transition_buffer - 1) ∧
      (evaluate_workload n).dimension =
        (if max 0 (n.transition_buffer - 1) = 0 then LOW
         else n.dimension)) := by
  constructor
  · intro h
    rw [evaluate_workload_above n h]
    exact ⟨rfl, rfl⟩
  · intro h
    rw [evaluate_workload_below n h]
    exact ⟨rfl, rfl⟩

/-- Claim C1, instantiated: a fresh node (counter 0, LOW) under signal
0.9 > 0.7 moves its counter to 1 and stays LOW; a HIGH node with counter
1 under signal 0.5 ≤ 0.7 drops its counter to 0 and becomes LOW. -/
theorem evaluate_workload_update_rule_witness :
    ((evaluate_workload (DimensionalNode.init 0 (9/10) 2 (7/10) 3)).transition_buffer = 1 ∧
      (evaluate_workload (DimensionalNode.init 0 (9/10) 2 (7/10) 3)).dimension = LOW) ∧
    ((evaluate_workload ⟨1, 1/2, 4, 1, 7/10, 3⟩).transition_buffer = 0 ∧
      (evaluate_workload ⟨1, 1/2, 4, 1, 7/10, 3⟩).dimension = LOW) := by
  constructor
  · obtain ⟨hb, hd⟩ :=
      (evaluate_workload_update_rule
        (DimensionalNode.init 0 (9/10) 2 (7/10) 3)).1
        (by norm_num [DimensionalNode.init])
    constructor
    · rw [hb]; norm_num [DimensionalNode.init]
    · rw [hd]; norm_num [DimensionalNode.init, LOW]
  · obtain ⟨hb, hd⟩ :=
      (evaluate_workload_update_rule ⟨1, 1/2, 4, 1, 7/10, 3⟩).2
        (by norm_num)
    constructor
    · rw [hb]; norm_num
    · rw [hd]; norm_num [LOW]

theorem evaluate_workload_workload (n : DimensionalNode) :
    (evaluate_workload n).workload = n.workload := by
  dsimp only [evaluate_workload]; split <;> split <;> rfl

theorem update_workload (n : DimensionalNode) (w : ℚ) :
    (n.update w).workload = w :=
  evaluate_workload_workload _

theorem update_buffer_nonneg (n : DimensionalNode) (w : ℚ)
    (h : 0 ≤ n.transition_buffer) :
    0 ≤ (n.update w).transition_buffer := by
  rcases le_or_lt w n.threshold with hw | hw
  · rw [(update_below n w hw).1]; exact le_max_left 0 _
  · rw [(update_above n w hw).1]; omega

/-! ## Claim C4 -/

/-- Claim C4: starting from a node whose debounce counter is
non-negative (as every constructed node is), any finite sequence of
`evaluate` calls with arbitrary signals keeps the counter non-negative;
since this holds for every sequence, it holds after every call of any
run, and in particular no below-threshold streak drives it below 0. -/
theorem foldl_update_buffer_nonneg (n : DimensionalNode)
    (h : 0 ≤ n.transition_buffer) (ws : List ℚ) :
    0 ≤ (ws.foldl DimensionalNode.update n).transition_buffer := by
  induction ws generalizing n with
  | nil => exact h
  | cons w ws ih =>
      exact ih (n.update w) (update_buffer_nonneg n w h)

/-- Claim C4, instantiated: a fresh node fed the signals
0.1, 0.9, 0.1, 0.1, 0.1 ends with a non-negative counter. -/
theorem foldl_update_buffer_nonneg_witness :
    0 ≤ (([1/10, 9/10, 1/10, 1/10, 1/10] : List ℚ).foldl
        DimensionalNode.update
        (DimensionalNode.init 0 (1/2) 2 (7/10) 3)).transition_buffer :=
  foldl_update_buffer_nonneg (DimensionalNode.init 0 (1/2) 2 (7/10) 3)
    (by norm_num [DimensionalNode.init]) _

/-! ## Claim C5 -/

/-- Claim C5: whenever a single `evaluate` call leaves the debounce
counter strictly between 0 and `debounce_limit` (inclusive on both ends
of 1 and the limit), the state after the call equals the state before
it: in the hysteresis dead zone neither transition fires. -/
theorem evaluate_workload_dead_zone (n : DimensionalNode)
    (h1 : 1 ≤ (evaluate_workload n).transition_buffer)
    (h2 : (evaluate_workload n).transition_buffer ≤ n.buffer_limit) :
    (evaluate_workload n).dimension = n.dimension := by
  rcases le_or_lt n.workload n.threshold with hw | hw
  · rw [evaluate_workload_below n hw] at h1 h2 ⊢
    dsimp at h1 h2 ⊢
    rw [if_neg (by omega)]
  · rw [evaluate_workload_above n hw] at h1 h2 ⊢
    dsimp at h1 h2 ⊢
    rw [if_neg (by omega)]

/-- Claim C5, instantiated: a LOW node with counter 0 under signal
0.9 > 0.7 gets counter 1, inside the dead zone 1..3, and stays LOW. -/
theorem evaluate_workload_dead_zone_witness :
    (evaluate_workload ⟨0, 9/10, 2, 0, 7/10, 3⟩).dimension = 2 :=
  evaluate_workload_dead_zone ⟨0, 9/10, 2, 0, 7/10, 3⟩
    (by norm_num [evaluate_workload])
    (by norm_num [evaluate_workload])

/-! ## Claim C10 -/

/-- Claim C10: with the counter at 0, any at-or-below-threshold signal
leaves the counter at 0 and puts the state at LOW, and the run of
`update` at such a signal is idempotent on the whole node state: a
second identical call changes nothing at all. -/
theorem update_floor_fixed_point (n : DimensionalNode) (w : ℚ)
    (h0 : n.transition_buffer = 0) (hw : w ≤ n.threshold) :
    (n.update w).transition_buffer = 0 ∧
    (n.update w).dimension = LOW ∧
    (n.update w).update w = n.update w := by
  obtain ⟨hb, hd⟩ := update_below n w hw
  have hmax : max 0 (n.transition_buffer - 1) = 0 := by omega
  have hb0 : (n.update w).transition_buffer = 0 := by rw [hb, hmax]
  have hd0 : (n.update w).dimension = LOW := by
    rw [hd, if_pos hmax]; rfl
  refine ⟨hb0, hd0, ?_⟩
  obtain ⟨hb2, hd2⟩ :=
    update_below (n.update w) w ((update_threshold n w).symm ▸ hw)
  have hmax2 : max 0 ((n.update w).transition_buffer - 1) = 0 := by
    omega
  apply DimensionalNode.ext
  · rw [update_id]
  · rw [update_workload, update_workload]
  · rw [hd2, if_pos hmax2, hd0]; rfl
  · rw [hb2, hmax2, hb0]
  · rw [update_threshold]
  · rw [update_limit]

/-- Claim C10, instantiated: a fresh LOW node under signal 0.1 keeps
counter 0, stays LOW, and a second identical call is a no-op. -/
theorem update_floor_fixed_point_witness :
    ((DimensionalNode.init 0 (1/2) 2 (7/10) 3).update
        (1/10)).transition_buffer = 0 ∧
    ((DimensionalNode.init 0 (1/2) 2 (7/10) 3).update
        (1/10)).dimension = LOW ∧
    ((DimensionalNode.init 0 (1/2) 2 (7/10) 3).update (1/10)).update
        (1/10) =
      (DimensionalNode.init 0 (1/2) 2 (7/10) 3).update (1/10) :=
  update_floor_fixed_point (DimensionalNode.init 0 (1/2) 2 (7/10) 3)
    (1/10) (by norm_num [DimensionalNode.init])
    (by norm_num [DimensionalNode.init])

/-! ## Claims C2 and C3: sustained streaks -/

theorem iterate_update_above (n : DimensionalNode) (w : ℚ)
    (hw : n.threshold < w) (hb : n.transition_buffer = 0)
    (hd : n.dimension = 2) :
    ∀ j : ℕ, (j : ℤ) ≤ n.buffer_limit →
      ((fun m => DimensionalNode.update m w)^[j] n).transition_buffer
          = (j : ℤ) ∧
      ((fun m => DimensionalNode.update m w)^[j] n).dimension = 2 ∧
      ((fun m => DimensionalNode.update m w)^[j] n).threshold
          = n.threshold ∧
      ((fun m => DimensionalNode.update m w)^[j] n).buffer_limit
          = n.buffer_limit := by
  intro j
  induction j with
  | zero => intro _; simpa using ⟨hb, hd⟩
  | succ j ih =>
      intro hj
      obtain ⟨b, d, t, l⟩ := ih (by push_cast at hj ⊢; omega)
      rw [Function.iterate_succ_apply']
      set m := (fun m => DimensionalNode.update m w)^[j] n with hm
      obtain ⟨hb2, hd2⟩ := update_above m w (t ▸ hw)
      refine ⟨?_, ?_, ?_, ?_⟩
      · rw [hb2, b]; push_cast; ring
      · rw [hd2, b, l, if_neg (by push_cast at hj ⊢; omega)]; exact d
      · rw [update_threshold]; exact t
      · rw [update_limit]; exact l

/-- Claim C2: a node starting LOW with counter 0 and debounce limit `L`,
fed a strictly-above-threshold signal repeatedly, is still LOW after
each of the first `L` calls and turns HIGH exactly on call `L + 1`, the
call on which the counter first exceeds the limit; and in the spec's
concrete scenario (threshold 0.7, limit 3, signals [0.9,0.9,0.9,0.9])
the recorded state sequence is [LOW, LOW, LOW, HIGH]. -/
theorem sustained_high_transition :
    (∀ (n : DimensionalNode) (L : ℕ) (w : ℚ),
      n.dimension = LOW → n.transition_buffer = 0 →
      n.buffer_limit = (L : ℤ) → n.threshold < w →
      (∀ k : ℕ, k ≤ L →
        ((fun m => DimensionalNode.update m w)^[k] n).dimension = LOW) ∧
      ((fun m => DimensionalNode.update m w)^[L + 1] n).dimension
          = HIGH) ∧
    nodeHistory (DimensionalNode.init 0 (1/2) 2 (7/10) 3)
        [9/10, 9/10, 9/10, 9/10] = [LOW, LOW, LOW, HIGH] := by
  constructor
  · intro n L w hd hb hl hw
    have hiter := iterate_update_above n w hw hb (by rw [hd]; rfl)
    constructor
    · intro k hk
      obtain ⟨_, d, _, _⟩ := hiter k (by rw [hl]; exact_mod_cast hk)
      rw [d]; rfl
    · obtain ⟨b, d, t, l⟩ := hiter L (by rw [hl])
      rw [Function.iterate_succ_apply']
      set m := (fun m => DimensionalNode.update m w)^[L] n
      obtain ⟨hb2, hd2⟩ := update_above m w (t ▸ hw)
      rw [hd2, b, l, hl, if_pos (by omega)]; rfl
  · norm_num [nodeHistory, DimensionalNode.update, evaluate_workload,
      DimensionalNode.init, LOW, HIGH]

/-- Claim C2, instantiated at threshold 0.7, limit 3, signal 0.9 from a
fresh node: LOW after 3 calls, HIGH on the 4th. -/
theorem sustained_high_transition_witness :
    ((fun m => DimensionalNode.update m (9/10))^[3]
        (DimensionalNode.init 0 (1/2) 2 (7/10) 3)).dimension = LOW ∧
    ((fun m => DimensionalNode.update m (9/10))^[4]
        (DimensionalNode.init 0 (1/2) 2 (7/10) 3)).dimension = HIGH := by
  obtain ⟨hlow, hhigh⟩ := sustained_high_transition.1
    (DimensionalNode.init 0 (1/2) 2 (7/10) 3) 3 (9/10) rfl rfl rfl
    (by norm_num [DimensionalNode.init])
  exact ⟨hlow 3 le_rfl, hhigh⟩

theorem iterate_update_below (n : DimensionalNode) (w : ℚ)
    (hw : w ≤ n.threshold) (c : ℕ) (hb : n.transition_buffer = (c : ℤ))
    (hd : n.dimension = 4) (hc : 1 ≤ c) :
    ∀ k : ℕ, k ≤ c →
      ((fun m => DimensionalNode.update m w)^[k] n).transition_buffer
          = ((c - k : ℕ) : ℤ) ∧
      ((fun m => DimensionalNode.update m w)^[k] n).dimension
          = (if k < c then 4 else 2) ∧
      ((fun m => DimensionalNode.update m w)^[k] n).threshold
          = n.threshold := by
  intro k
  induction k with
  | zero =>
      intro _
      simpa [hb, hd] using (if_pos hc).symm
  | succ k ih =>
      intro hk
      obtain ⟨b, d, t⟩ := ih (by omega)
      rw [Function.iterate_succ_apply']
      set m := (fun m => DimensionalNode.update m w)^[k] n with hm
      obtain ⟨hb2, hd2⟩ := update_below m w (t ▸ hw)
      have hbm : max 0 (m.transition_buffer - 1) = ((c - (k + 1) : ℕ) : ℤ) := by
        rw [b]; omega
      refine ⟨?_, ?_, ?_⟩
      · rw [hb2, hbm]
      · rw [hd2, hbm]
        by_cases hkc : k + 1 < c
        · rw [if_neg (by omega), if_pos hkc, d, if_pos (by omega)]
        · rw [if_pos (by omega), if_neg hkc]
      · rw [update_threshold]; exact t

/-- Claim C3: a HIGH node with counter `c ≥ 1`, fed an at-or-below-
threshold signal repeatedly, is still HIGH with counter `c - k` after
each of the first `c - 1` calls and turns LOW exactly on call `c`, the
call on which the counter reaches 0; and in the spec's concrete
scenario (HIGH, counter 4, signals [0.1,0.1,0.1,0.1]) the counter runs
through [3, 2, 1, 0] and the state becomes LOW only at the 4th step. -/
theorem sustained_low_transition :
    (∀ (n : DimensionalNode) (c : ℕ) (w : ℚ),
      n.dimension = HIGH → n.transition_buffer = (c : ℤ) → 1 ≤ c →
      w ≤ n.threshold →
      (∀ k : ℕ, 1 ≤ k → k < c →
        ((fun m => DimensionalNode.update m w)^[k] n).dimension = HIGH ∧
        ((fun m => DimensionalNode.update m w)^[k] n).transition_buffer
            = ((c - k : ℕ) : ℤ)) ∧
      ((fun m => DimensionalNode.update m w)^[c] n).dimension = LOW ∧
      ((fun m => DimensionalNode.update m w)^[c] n).transition_buffer
          = 0) ∧
    (((fun m => DimensionalNode.update m (1/10))^[1]
        (⟨1, 1/2, 4, 4, 7/10, 3⟩ : DimensionalNode)).transition_buffer = 3 ∧
     ((fun m => DimensionalNode.update m (1/10))^[2]
        (⟨1, 1/2, 4, 4, 7/10, 3⟩ : DimensionalNode)).transition_buffer = 2 ∧
     ((fun m => DimensionalNode.update m (1/10))^[3]
        (⟨1, 1/2, 4, 4, 7/10, 3⟩ : DimensionalNode)).transition_buffer = 1 ∧
     ((fun m => DimensionalNode.update m (1/10))^[4]
        (⟨1, 1/2, 4, 4, 7/10, 3⟩ : DimensionalNode)).transition_buffer = 0) ∧
    nodeHistory (⟨1, 1/2, 4, 4, 7/10, 3⟩ : DimensionalNode)
        [1/10, 1/10, 1/10, 1/10] = [HIGH, HIGH, HIGH, LOW] := by
  refine ⟨?_, ?_, ?_⟩
  · intro n c w hd hb hc hw
    have hiter := iterate_update_below n w hw c hb (by rw [hd]; rfl) hc
    refine ⟨?_, ?_, ?_⟩
    · intro k _ hkc
      obtain ⟨b, d, _⟩ := hiter k (by omega)
      rw [d, if_pos hkc, b]
      exact ⟨rfl, rfl⟩
    · obtain ⟨_, d, _⟩ := hiter c le_rfl
      rw [d, if_neg (by omega)]; rfl
    · obtain ⟨b, _, _⟩ := hiter c le_rfl
      rw [b]; simp
  · norm_num [Function.iterate_succ_apply, Function.iterate_zero_apply,
      DimensionalNode.update, evaluate_workload]
  · norm_num [nodeHistory, DimensionalNode.update, evaluate_workload,
      LOW, HIGH]

/-- Claim C3, instantiated: from HIGH with counter 4 under signal 0.1,
still HIGH after 3 calls and LOW with counter 0 on the 4th. -/
theorem sustained_low_transition_witness :
    ((fun m => DimensionalNode.update m (1/10))^[3]
        (⟨1, 1/2, 4, 4, 7/10, 3⟩ : DimensionalNode)).dimension = HIGH ∧
    ((fun m => DimensionalNode.update m (1/10))^[4]
        (⟨1, 1/2, 4, 4, 7/10, 3⟩ : DimensionalNode)).dimension = LOW := by
  obtain ⟨hhigh, hlow, -⟩ := sustained_low_transition.1
    (⟨1, 1/2, 4, 4, 7/10, 3⟩ : DimensionalNode) 4 (1/10) rfl rfl
    (by norm_num) (by norm_num)
  exact ⟨(hhigh 3 (by norm_num) (by norm_num)).1, hlow⟩

/-! ## Characterising the driver loop -/

theorem appendAt_map (L : List ℕ) (h : ℕ → List ℤ) (a : ℕ) (d : ℤ) :
    appendAt (L.map fun i => (i, h i)) a d =
      L.map fun i => (i, if i = a then h i ++ [d] else h i) := by
  simp only [appendAt, List.map_map]
  refine List.map_congr_left fun i _ => ?_
  by_cases hia : i = a <;> simp [hia]

theorem stepNodes_eq (src : ℕ → ℚ) (N : ℕ → DimensionalNode)
    (hid : ∀ i, (N i).id = i) :
    ∀ (l : List ℕ) (k : ℕ) (L : List ℕ) (h : ℕ → List ℤ),
      stepNodes src (l.map N) k (L.map fun i => (i, h i)) =
        (passNodes src N l k, k + l.length,
          L.map fun i => (i, passHist src N l k h i)) := by
  intro l
  induction l with
  | nil => intro k L h; simp [stepNodes, passNodes, passHist]
  | cons a l ih =>
      intro k L h
      simp only [List.map_cons, stepNodes, update_id, hid, appendAt_map]
      rw [ih (k + 1) L]
      simp only [passNodes, passHist, List.length_cons]
      rw [show k + 1 + l.length = k + (l.length + 1) by omega]

theorem passNodes_append (src : ℕ → ℚ) (N : ℕ → DimensionalNode) :
    ∀ (l₁ l₂ : List ℕ) (k : ℕ),
      passNodes src N (l₁ ++ l₂) k =
        passNodes src N l₁ k ++ passNodes src N l₂ (k + l₁.length) := by
  intro l₁
  induction l₁ with
  | nil => intro l₂ k; simp [passNodes]
  | cons a l ih =>
      intro l₂ k
      rw [List.cons_append]
      simp only [passNodes, List.length_cons]
      rw [ih l₂ (k + 1),
        show k + (l.length + 1) = k + 1 + l.length by omega]
      rfl

theorem passHist_append (src : ℕ → ℚ) (N : ℕ → DimensionalNode) :
    ∀ (l₁ l₂ : List ℕ) (k : ℕ) (h : ℕ → List ℤ),
      passHist src N (l₁ ++ l₂) k h =
        passHist src N l₂ (k + l₁.length) (passHist src N l₁ k h) := by
  intro l₁
  induction l₁ with
  | nil => intro l₂ k h; simp [passHist]
  | cons a l ih =>
      intro l₂ k h
      rw [List.cons_append]
      simp only [passHist, List.length_cons]
      rw [ih l₂ (k + 1),
        show k + (l.length + 1) = k + 1 + l.length by omega]

theorem passNodes_range (src : ℕ → ℚ) (N : ℕ → DimensionalNode) :
    ∀ (n : ℕ) (k : ℕ),
      passNodes src N (List.range n) k =
        (List.range n).map
          fun i => DimensionalNode.update (N i) (src (k + i)) := by
  intro n
  induction n with
  | zero => intro k; simp [passNodes]
  | succ n ih =>
      intro k
      rw [List.range_succ, passNodes_append, ih]
      simp [passNodes, List.length_range]

theorem passHist_range (src : ℕ → ℚ) (N : ℕ → DimensionalNode) :
    ∀ (n : ℕ) (k : ℕ) (h : ℕ → List ℤ) (i : ℕ),
      passHist src N (List.range n) k h i =
        if i < n then
          h i ++ [(DimensionalNode.update (N i) (src (k + i))).dimension]
        else h i := by
  intro n
  induction n with
  | zero => intro k h i; simp [passHist]
  | succ n ih =>
      intro k h i
      rw [List.range_succ, passHist_append]
      simp only [passHist, List.length_range]
      by_cases hin : i = n
      · subst hin
        rw [if_pos rfl, ih, if_neg (by omega), if_pos (by omega)]
      · rw [if_neg hin, ih]
        by_cases hlt : i < n
        · rw [if_pos hlt, if_pos (by omega)]
        · rw [if_neg hlt, if_neg (by omega)]

theorem runSteps_eq (src : ℕ → ℚ) :
    ∀ (s n : ℕ) (N : ℕ → DimensionalNode) (k : ℕ) (h : ℕ → List ℤ),
      (∀ i, (N i).id = i) →
      runSteps src s ((List.range n).map N) k
          ((List.range n).map fun i => (i, h i)) =
        (List.range n).map fun i =>
          (i, h i ++ nodeHistory (N i)
                ((List.range s).map fun t => src (k + t * n + i))) := by
  intro s
  induction s with
  | zero => intro n N k h _; simp [runSteps, nodeHistory]
  | succ s ih =>
      intro n N k h hid
      simp only [runSteps]
      rw [stepNodes_eq src N hid (List.range n) k (List.range n) h]
      dsimp only
      rw [passNodes_range, List.length_range]
      rw [ih n (fun i => DimensionalNode.update (N i) (src (k + i)))
          (k + n) (passHist src N (List.range n) k h)
          (fun i => by rw [update_id, hid])]
      refine List.map_congr_left fun i hi => ?_
      have hin : i < n := List.mem_range.mp hi
      rw [passHist_range, if_pos hin]
      have harg : k + 0 * n + i = k + i := by omega
      have hmap : (List.range s).map
            ((fun t => src (k + t * n + i)) ∘ Nat.succ) =
          (List.range s).map fun t => src (k + n + t * n + i) :=
        List.map_congr_left fun t _ => by
          simp only [Function.comp_apply]
          congr 1
          rw [Nat.succ_mul]
          omega
      rw [List.range_succ_eq_map, List.map_cons, List.map_map, hmap,
        harg, nodeHistory, List.append_assoc, List.singleton_append]

/-- The simulation run, node by node: the history dict maps every id
`i < num_nodes` to the per-node trace of the node created with initial
workload `src i` (draw `i`) and the defaults, fed the draws
`src (num_nodes + t * num_nodes + i)` at steps `t = 0, 1, ...` -/
theorem simulate_nodes_eq (n s : ℕ) (src : ℕ → ℚ) :
    simulate_nodes n s src =
      (List.range n).map fun i =>
        (i, nodeHistory (DimensionalNode.init i (src i) 2 (7/10) 3)
              ((List.range s).map fun t => src (n + t * n + i))) := by
  unfold simulate_nodes
  rw [runSteps_eq src s n
      (fun i => DimensionalNode.init i (src i) 2 (7/10) 3) n
      (fun _ => []) (fun i => rfl)]
  simp

theorem nodeHistory_length (n : DimensionalNode) :
    ∀ qs : List ℚ, (nodeHistory n qs).length = qs.length := by
  intro qs
  induction qs generalizing n with
  | nil => rfl
  | cons q qs ih => simp [nodeHistory, ih]

/-! ## Claim C9 -/

/-- Claim C9: for `node_count ≥ 1` and any `step_count`, the run
returns a mapping whose keys are exactly the node ids `0, ...,
node_count - 1`, each mapped to a history with exactly one state per
step; in particular for `step_count = 0` every history is empty. -/
theorem simulate_nodes_history_shape (n s : ℕ) (src : ℕ → ℚ)
    (hn : 1 ≤ n) :
    (simulate_nodes n s src).map Prod.fst = List.range n ∧
    ∀ p ∈ simulate_nodes n s src,
      p.2.length = s ∧ (s = 0 → p.2 = []) := by
  constructor
  · rw [simulate_nodes_eq, List.map_map]
    exact (List.map_congr_left fun i _ => rfl).trans (List.map_id _)
  · intro p hp
    rw [simulate_nodes_eq] at hp
    obtain ⟨i, hi, rfl⟩ := List.mem_map.mp hp
    constructor
    · simp [nodeHistory_length]
    · intro hs
      subst hs
      simp [nodeHistory]

/-- Claim C9, instantiated: 2 nodes run for 3 steps yield the key set
{0, 1}. -/
theorem simulate_nodes_history_shape_witness :
    (simulate_nodes 2 3 (fun _ => 9/10)).map Prod.fst = List.range 2 :=
  (simulate_nodes_history_shape 2 3 (fun _ => 9/10) (by norm_num)).1

/-! ## Claim C6 -/

/-- Claim C6 fails on the code: `evaluate_workload` has no `return`
statement, so the call returns `None` and not the resulting state; at a
concrete fresh node the returned value differs from `some` of the
post-call state. -/
theorem evaluate_workload_returns_none_cex :
    ¬ ((evaluate_workload_call
          (DimensionalNode.init 0 (9/10) 2 (7/10) 3)).2 =
        some ((evaluate_workload_call
          (DimensionalNode.init 0 (9/10) 2 (7/10) 3)).1.dimension)) := by
  simp [evaluate_workload_call]

/-- Claim C6 as amended: a call to `evaluate_workload` updates the
node's counter and state (the mutated node is the `evaluate_workload`
image) but returns `None`, never any state value; callers read the
resulting state from the node's state field instead. -/
theorem evaluate_workload_call_mutates_returns_none
    (n : DimensionalNode) :
    (evaluate_workload_call n).1 = evaluate_workload n ∧
    ∀ d : ℤ, (evaluate_workload_call n).2 ≠ some d :=
  ⟨rfl, fun _ => by simp [evaluate_workload_call]⟩

/-! ## Claim C7 -/

/-- Claim C7 fails on the code: there is no configuration validation.
Constructing a node with the invalid `buffer_limit = 0` succeeds, and
running the simulation with the invalid `num_nodes = 0` completes
without any error, returning an empty history mapping. -/
theorem no_config_validation_cex :
    DimensionalNode.construct 7 (1/2) 2 (7/10) 0 =
        Except.ok (DimensionalNode.init 7 (1/2) 2 (7/10) 0) ∧
    simulate_nodes_run 0 5 (fun _ => 1/2) = Except.ok [] :=
  ⟨rfl, rfl⟩

/-- Claim C7 as amended: neither construction nor the simulation run
validates its configuration. Construction accepts any parameters
(including non-positive debounce limits and thresholds outside (0,1))
and always succeeds, and the run accepts any node and step counts and
always returns a history mapping instead of raising a
configuration error. -/
theorem no_config_validation (id : ℕ) (w : ℚ) (dim : ℤ) (thr : ℚ)
    (lim : ℤ) (nn ss : ℕ) (src : ℕ → ℚ) :
    (∃ node, DimensionalNode.construct id w dim thr lim =
        Except.ok node) ∧
    (∃ hist, simulate_nodes_run nn ss src = Except.ok hist) :=
  ⟨⟨_, rfl⟩, ⟨_, rfl⟩⟩

end H3X
